import Mathlib

/-!
Shallow embedding of `implementation/base/base_trainer.py` (class `BaseTrainer`).

Modelling choices, all read off the Python source:

* Metric values in an epoch's log are rationals (`ℚ`); the running best
  `mnt_best` can additionally be `inf` / `-inf` (numpy), so it lives in
  `EV := WithBot (WithTop ℚ)` with `⊤` playing `inf` and `⊥` playing `-inf`.
* `early_stop` is `cfg_trainer.get('early_stop', inf)`, an integer or `inf`,
  modelled as `WithTop ℤ`.
* The abstract hooks `_train_epoch` / `_warmup_epoch` and the log dictionary
  they produce are abstracted into `logs : ℕ → Option ℚ`, the lookup
  `log[self.mnt_metric]` for each epoch (`none` models the `KeyError` case);
  which hook produced the epoch result is recorded in the epoch's trace.
* The opaque library objects (model / optimizer state dicts, the train
  criterion's `masterVector`) are opaque handles of type `ℕ`; the model's
  type name is a `String`.
* One loop iteration of `BaseTrainer.train` becomes `runEpoch`, returning an
  `EpochRecord` of everything the iteration did; `trainLoop` folds it over
  `range(self.start_epoch, self.epochs + 1)`, stopping at the `break`.
* `runEvents` flattens a whole run (`__init__` including `_resume_checkpoint`,
  then `train()`) into an event trace, for the temporal claims.
-/

/-- Extended metric values: `⊤` is `inf`, `⊥` is `-inf`. -/
abbrev EV := WithBot (WithTop ℚ)

/-- A plain rational metric value, as an extended value. -/
def qEV (v : ℚ) : EV := ((v : WithTop ℚ) : EV)

/-- A natural number viewed in `WithTop ℤ` (for `not_improved_count > self.early_stop`,
where `early_stop` may be the numpy `inf`). -/
def nwt (n : ℕ) : WithTop ℤ := ((n : ℤ) : WithTop ℤ)

/-- `self.mnt_mode`: `'off'`, `'min'` or `'max'` (the assert in `__init__`
rules everything else out). -/
inductive MntMode
  | off
  | min
  | max
deriving DecidableEq

/-- The dictionary `state` built by `BaseTrainer._save_checkpoint` (and read
back by `_resume_checkpoint`): exactly the keys `arch`, `epoch`, `state_dict`,
`optimizer`, `monitor_best`, `masterVector`. -/
structure Checkpoint where
  arch : String
  epoch : ℕ
  state_dict : ℕ
  optimizer : ℕ
  monitor_best : EV
  masterVector : ℕ
deriving DecidableEq

/-- The configuration entries `BaseTrainer` reads: `config['trainer']`
(`epochs`, `save_period`, `warmup`, `monitor`, `early_stop`), `config.resume`
(with the checkpoint it points to inlined), and whether a Comet writer was
configured (`config['comet']['api'] is not None`). The monitored metric key
itself is abstracted away into the `logs` lookup function. -/
structure Config where
  epochs : ℕ
  savePeriod : ℕ
  warmup : ℕ
  monitor : MntMode
  earlyStop : WithTop ℤ
  resume : Option Checkpoint
  hasWriter : Bool
deriving DecidableEq

/-- The state of the externally constructed library objects handed to
`BaseTrainer.__init__`: the model's and optimizer's state dicts and the train
criterion's `masterVector` / `masterflag`, as opaque handles. -/
structure ExternalState where
  modelState : ℕ
  optState : ℕ
  masterVector : ℕ
  masterflag : Bool
deriving DecidableEq

/-- The mutable attributes of `BaseTrainer` the claims are about:
`mnt_mode`, `mnt_best`, `start_epoch`, and the handles that
`_save_checkpoint` / `_resume_checkpoint` read and write. -/
structure TrainerState where
  mntMode : MntMode
  mntBest : EV
  startEpoch : ℕ
  masterVector : ℕ
  masterflag : Bool
  modelState : ℕ
  optState : ℕ
deriving DecidableEq

/-- `BaseTrainer.__init__` followed by the optional `_resume_checkpoint`:
monitor setup (`mnt_mode`, `mnt_best` = `inf`/`-inf`/`0`), `start_epoch = 1`,
then, when `config.resume is not None`, restore `start_epoch`, `mnt_best`,
`masterVector` (clearing `masterflag`) and load the model / optimizer state
dicts from the checkpoint. -/
def initTrainer (cfg : Config) (ext : ExternalState) : TrainerState :=
  let base : TrainerState :=
    { mntMode := cfg.monitor
      mntBest := match cfg.monitor with
        | MntMode.off => (0 : EV)
        | MntMode.min => (⊤ : EV)
        | MntMode.max => (⊥ : EV)
      startEpoch := 1
      masterVector := ext.masterVector
      masterflag := ext.masterflag
      modelState := ext.modelState
      optState := ext.optState }
  match cfg.resume with
  | none => base
  | some c =>
      { base with
        startEpoch := c.epoch + 1
        mntBest := c.monitor_best
        masterVector := c.masterVector
        masterflag := false
        modelState := c.state_dict
        optState := c.optimizer }

/-- `BaseTrainer._save_checkpoint(epoch, save_best)`: builds the `state` dict
from the current trainer state (`arch` is `type(self.model).__name__`); the
per-epoch `checkpoint-epoch{n}.pth` save is commented out in the source, so a
file (`model_best.pth`) is written exactly when `save_best` is true. -/
def saveCheckpoint (arch : String) (s : TrainerState) (epoch : ℕ) (saveBest : Bool) :
    Option Checkpoint :=
  let state : Checkpoint :=
    { arch := arch
      epoch := epoch
      state_dict := s.modelState
      optimizer := s.optState
      monitor_best := s.mntBest
      masterVector := s.masterVector }
  if saveBest then some state else none

/-- What one iteration of the `for epoch in ...` loop in `BaseTrainer.train`
did: which hook produced the result, whether the monitor block ran, whether
the `KeyError` warning fired, the `best` flag, whether the `break` was taken,
whether `_save_checkpoint` was called and whether it wrote `model_best.pth`,
and the trainer state / `not_improved_count` after the iteration. -/
structure EpochRecord where
  epoch : ℕ
  warmupUsed : Bool
  monitored : Bool
  keyWarn : Bool
  best : Bool
  broke : Bool
  saveCalled : Bool
  savedBest : Bool
  after : TrainerState
  afterCount : ℕ
deriving DecidableEq

/-- One iteration of the loop body of `BaseTrainer.train` at epoch `e`, from
trainer state `s` and `not_improved_count` `c`. `logs e` is the lookup
`log[self.mnt_metric]` for this epoch (`none` = `KeyError`). Mirrors the
source line by line: the warmup test, the `mnt_mode != 'off'` guard, the
non-strict `<=` / `>=` improvement test, the `KeyError` fallback that turns
monitoring off, the `not_improved_count > self.early_stop` break, and the
`epoch % self.save_period == 0` checkpoint call (skipped when the break fired
first). -/
def runEpoch (cfg : Config) (logs : ℕ → Option ℚ) (e : ℕ) (s : TrainerState) (c : ℕ) :
    EpochRecord :=
  if s.mntMode = MntMode.off then
    { epoch := e, warmupUsed := decide (e ≤ cfg.warmup), monitored := false, keyWarn := false
      best := false, broke := false
      saveCalled := decide (e % cfg.savePeriod = 0), savedBest := false
      after := s, afterCount := c }
  else
    match logs e with
    | none =>
        { epoch := e, warmupUsed := decide (e ≤ cfg.warmup), monitored := true, keyWarn := true
          best := false, broke := decide (cfg.earlyStop < nwt (c + 1))
          saveCalled := !(decide (cfg.earlyStop < nwt (c + 1))) && decide (e % cfg.savePeriod = 0)
          savedBest := false
          after := { s with mntMode := MntMode.off }, afterCount := c + 1 }
    | some v =>
        if (s.mntMode = MntMode.min ∧ qEV v ≤ s.mntBest) ∨
            (s.mntMode = MntMode.max ∧ s.mntBest ≤ qEV v) then
          { epoch := e, warmupUsed := decide (e ≤ cfg.warmup), monitored := true, keyWarn := false
            best := true, broke := decide (cfg.earlyStop < nwt 0)
            saveCalled := !(decide (cfg.earlyStop < nwt 0)) && decide (e % cfg.savePeriod = 0)
            savedBest := !(decide (cfg.earlyStop < nwt 0)) && decide (e % cfg.savePeriod = 0)
            after := { s with mntBest := qEV v }, afterCount := 0 }
        else
          { epoch := e, warmupUsed := decide (e ≤ cfg.warmup), monitored := true, keyWarn := false
            best := false, broke := decide (cfg.earlyStop < nwt (c + 1))
            saveCalled := !(decide (cfg.earlyStop < nwt (c + 1))) && decide (e % cfg.savePeriod = 0)
            savedBest := false
            after := s, afterCount := c + 1 }

/-- The loop of `BaseTrainer.train` over a list of epoch numbers, threading
the trainer state and the local `not_improved_count`, and stopping (with the
breaking iteration's record kept) when the `break` is taken. -/
def trainLoop (cfg : Config) (logs : ℕ → Option ℚ) :
    List ℕ → TrainerState → ℕ → List EpochRecord
  | [], _, _ => []
  | e :: rest, s, c =>
      let r := runEpoch cfg logs e s c
      if r.broke then [r] else r :: trainLoop cfg logs rest r.after r.afterCount

/-- `range(self.start_epoch, self.epochs + 1)`. -/
def epochList (cfg : Config) (start : ℕ) : List ℕ :=
  List.range' start (cfg.epochs + 1 - start)

/-- A full run of `BaseTrainer.train()` after `__init__` (with its optional
resume), as the list of per-epoch records. -/
def runRecords (cfg : Config) (logs : ℕ → Option ℚ) (ext : ExternalState) :
    List EpochRecord :=
  trainLoop cfg logs (epochList cfg (initTrainer cfg ext).startEpoch) (initTrainer cfg ext) 0

/-- Observable events of a run: `__init__` starting, `_resume_checkpoint`,
the per-epoch hook call (`_warmup_epoch` when the flag is true, `_train_epoch`
otherwise), the epoch's log being produced, the `_save_checkpoint(epoch, best)`
call, the write of `model_best.pth`, and `self.writer.finalize()`. -/
inductive Event
  | initEv
  | resumeEv
  | hookCall (epoch : ℕ) (warmup : Bool)
  | logEv (epoch : ℕ)
  | saveCall (epoch : ℕ) (best : Bool)
  | saveBestWrite (epoch : ℕ)
  | finalizeEv
deriving DecidableEq

/-- The events of one loop iteration, in source order: hook call, log,
then (unless the break fired) the checkpoint call and, inside it, the
`model_best.pth` write when `save_best` was set. -/
def recEvents (r : EpochRecord) : List Event :=
  [Event.hookCall r.epoch r.warmupUsed, Event.logEv r.epoch] ++
    (if r.saveCalled then
      Event.saveCall r.epoch r.best ::
        (if r.savedBest then [Event.saveBestWrite r.epoch] else [])
    else [])

/-- The event trace of a whole run: `__init__` (with `_resume_checkpoint`
when `config.resume is not None`), then the epoch loop, then
`self.writer.finalize()` when a writer was configured. -/
def runEvents (cfg : Config) (logs : ℕ → Option ℚ) (ext : ExternalState) : List Event :=
  Event.initEv ::
    ((if cfg.resume.isSome then [Event.resumeEv] else []) ++
      (runRecords cfg logs ext).flatMap recEvents ++
      (if cfg.hasWriter then [Event.finalizeEv] else []))

/-- Result of `BaseTrainer._prepare_device`: the two possible warnings, the
effective GPU count, whether the chosen device is `cuda:0` (vs `cpu`), and
`list_ids = list(range(n_gpu_use))`. -/
structure DeviceResult where
  warnNoGpu : Bool
  warnExceed : Bool
  nGpuUse : ℕ
  cudaDevice : Bool
  deviceIds : List ℕ
deriving DecidableEq

/-- `BaseTrainer._prepare_device(n_gpu_use)` with `n_gpu =
torch.cuda.device_count()` passed in as `nGpu`: zero the request (with a
warning) when no GPU exists, clamp it (with a warning) when it exceeds the
available count, pick `cuda:0` when the result is positive and `cpu`
otherwise. -/
def prepareDevice (nGpu nGpuUse : ℕ) : DeviceResult :=
  let w1 : Bool := decide (0 < nGpuUse ∧ nGpu = 0)
  let n1 : ℕ := if 0 < nGpuUse ∧ nGpu = 0 then 0 else nGpuUse
  let w2 : Bool := decide (nGpu < n1)
  let n2 : ℕ := if nGpu < n1 then nGpu else n1
  { warnNoGpu := w1
    warnExceed := w2
    nGpuUse := n2
    cudaDevice := decide (0 < n2)
    deviceIds := List.range n2 }

/-! ### Concrete runs used as witnesses and counterexamples -/

/-- Monitoring in `min` mode with `early_stop = 1` and a strictly worsening
metric from epoch 2 on. -/
def cfgB : Config :=
  { epochs := 3, savePeriod := 1, warmup := 0, monitor := MntMode.min
    earlyStop := nwt 1, resume := none, hasWriter := false }

/-- Metric value `e` at epoch `e`: improves once, then keeps worsening. -/
def logsB : ℕ → Option ℚ := fun e => some (e : ℚ)

/-- Arbitrary external objects. -/
def extB : ExternalState :=
  { modelState := 0, optState := 0, masterVector := 0, masterflag := true }

/-- A checkpoint of epoch 1, as `_save_checkpoint` would have written it. -/
def ckptC : Checkpoint :=
  { arch := "Net", epoch := 1, state_dict := 7, optimizer := 8
    monitor_best := qEV 10, masterVector := 9 }

/-- A resumed run with a writer configured. -/
def cfgC : Config :=
  { epochs := 2, savePeriod := 1, warmup := 0, monitor := MntMode.min
    earlyStop := (⊤ : WithTop ℤ), resume := some ckptC, hasWriter := true }

/-- Constant metric value 5. -/
def logsC : ℕ → Option ℚ := fun _ => some 5

/-- External objects that the resume overwrites. -/
def extC : ExternalState :=
  { modelState := 1, optState := 2, masterVector := 3, masterflag := true }

/-- A run whose monitored metric key is missing from the very first log. -/
def cfgE : Config :=
  { epochs := 3, savePeriod := 2, warmup := 1, monitor := MntMode.min
    earlyStop := (⊤ : WithTop ℤ), resume := none, hasWriter := false }

/-- The monitored key is absent at epoch 1, present afterwards. -/
def logsE : ℕ → Option ℚ := fun e => if e = 1 then none else some 5

/-- A run configured with `monitor: off`. -/
def cfgF : Config :=
  { epochs := 2, savePeriod := 1, warmup := 0, monitor := MntMode.off
    earlyStop := nwt 0, resume := none, hasWriter := true }

/-- `max` monitoring with `save_period = 2`, so the improving epoch 1 is not
a save epoch. -/
def cfgG : Config :=
  { epochs := 1, savePeriod := 2, warmup := 0, monitor := MntMode.max
    earlyStop := (⊤ : WithTop ℤ), resume := none, hasWriter := false }

/-- Constant metric value 3. -/
def logsG : ℕ → Option ℚ := fun _ => some 3

/-- Constant metric value 10, equal to `stW.mntBest`. -/
def logsW : ℕ → Option ℚ := fun _ => some 10

/-- A trainer state with a finite current best. -/
def stW : TrainerState :=
  { mntMode := MntMode.min, mntBest := qEV 10, startEpoch := 1
    masterVector := 9, masterflag := false, modelState := 7, optState := 8 }

/-- The checkpoint `_save_checkpoint` builds from `stW` at epoch 4. -/
def ckW : Checkpoint :=
  { arch := "Net", epoch := 4, state_dict := 7, optimizer := 8
    monitor_best := qEV 10, masterVector := 9 }

/-- A default record, used only as the fallback of `List.getD`. -/
def arbState : TrainerState :=
  { mntMode := MntMode.off, mntBest := (0 : EV), startEpoch := 1
    masterVector := 0, masterflag := false, modelState := 0, optState := 0 }

/-- A default record, used only as the fallback of `List.getD`. -/
def arbRec : EpochRecord :=
  { epoch := 0, warmupUsed := false, monitored := false, keyWarn := false
    best := false, broke := false, saveCalled := false, savedBest := false
    after := arbState, afterCount := 0 }

/-- Epoch 2 of run B: the first non-improving epoch. -/
def recB2 : EpochRecord := (runRecords cfgB logsB extB).getD 1 arbRec

/-- Epoch 3 of run B: the epoch that takes the break. -/
def recB3 : EpochRecord := (runRecords cfgB logsB extB).getD 2 arbRec

/-- The single (best) epoch of the resumed run C. -/
def recC1 : EpochRecord := (runRecords cfgC logsC extC).getD 0 arbRec

/-- Epoch 1 of run E: the epoch whose log misses the monitored key. -/
def recE1 : EpochRecord := (runRecords cfgE logsE extB).getD 0 arbRec

/-- Epoch 3 of run E: two epochs after monitoring was disabled. -/
def recE3 : EpochRecord := (runRecords cfgE logsE extB).getD 2 arbRec

/-- Epoch 1 of run G: improving but not a save epoch. -/
def recG1 : EpochRecord := (runRecords cfgG logsG extB).getD 0 arbRec

/-! ### Basic facts about one loop iteration -/

theorem runEpoch_epoch (cfg : Config) (logs : ℕ → Option ℚ) (e : ℕ) (s : TrainerState) (c : ℕ) :
    (runEpoch cfg logs e s c).epoch = e := by
  unfold runEpoch
  split
  · rfl
  · split
    · rfl
    · split <;> rfl

theorem runEpoch_warmupUsed (cfg : Config) (logs : ℕ → Option ℚ) (e : ℕ) (s : TrainerState)
    (c : ℕ) : (runEpoch cfg logs e s c).warmupUsed = decide (e ≤ cfg.warmup) := by
  unfold runEpoch
  split
  · rfl
  · split
    · rfl
    · split <;> rfl

theorem runEpoch_monitored (cfg : Config) (logs : ℕ → Option ℚ) (e : ℕ) (s : TrainerState)
    (c : ℕ) : (runEpoch cfg logs e s c).monitored = decide (¬ s.mntMode = MntMode.off) := by
  unfold runEpoch
  split
  · simp [*]
  · split
    · simp [*]
    · split <;> simp [*]

theorem runEpoch_broke (cfg : Config) (logs : ℕ → Option ℚ) (e : ℕ) (s : TrainerState) (c : ℕ) :
    (runEpoch cfg logs e s c).broke =
      ((runEpoch cfg logs e s c).monitored &&
        decide (cfg.earlyStop < nwt (runEpoch cfg logs e s c).afterCount)) := by
  unfold runEpoch
  split
  · simp
  · split
    · simp
    · split <;> simp

theorem runEpoch_saveCalled (cfg : Config) (logs : ℕ → Option ℚ) (e : ℕ) (s : TrainerState)
    (c : ℕ) : (runEpoch cfg logs e s c).saveCalled =
      (!(runEpoch cfg logs e s c).broke && decide (e % cfg.savePeriod = 0)) := by
  unfold runEpoch
  split
  · simp
  · split
    · simp
    · split <;> simp

theorem runEpoch_savedBest (cfg : Config) (logs : ℕ → Option ℚ) (e : ℕ) (s : TrainerState)
    (c : ℕ) : (runEpoch cfg logs e s c).savedBest =
      ((runEpoch cfg logs e s c).saveCalled && (runEpoch cfg logs e s c).best) := by
  unfold runEpoch
  split
  · simp
  · split
    · simp
    · split <;> simp

theorem runEpoch_off (cfg : Config) (logs : ℕ → Option ℚ) (e : ℕ) (s : TrainerState) (c : ℕ)
    (h : s.mntMode = MntMode.off) :
    runEpoch cfg logs e s c =
      { epoch := e, warmupUsed := decide (e ≤ cfg.warmup), monitored := false, keyWarn := false
        best := false, broke := false
        saveCalled := decide (e % cfg.savePeriod = 0), savedBest := false
        after := s, afterCount := c } := by
  unfold runEpoch
  simp [h]

theorem runEpoch_none (cfg : Config) (logs : ℕ → Option ℚ) (e : ℕ) (s : TrainerState) (c : ℕ)
    (h : ¬ s.mntMode = MntMode.off) (hl : logs e = none) :
    runEpoch cfg logs e s c =
      { epoch := e, warmupUsed := decide (e ≤ cfg.warmup), monitored := true, keyWarn := true
        best := false, broke := decide (cfg.earlyStop < nwt (c + 1))
        saveCalled := !(decide (cfg.earlyStop < nwt (c + 1))) && decide (e % cfg.savePeriod = 0)
        savedBest := false
        after := { s with mntMode := MntMode.off }, afterCount := c + 1 } := by
  unfold runEpoch
  rw [if_neg h, hl]

theorem runEpoch_some_pos (cfg : Config) (logs : ℕ → Option ℚ) (e : ℕ) (s : TrainerState)
    (c : ℕ) (v : ℚ) (h : ¬ s.mntMode = MntMode.off) (hl : logs e = some v)
    (himp : (s.mntMode = MntMode.min ∧ qEV v ≤ s.mntBest) ∨
      (s.mntMode = MntMode.max ∧ s.mntBest ≤ qEV v)) :
    runEpoch cfg logs e s c =
      { epoch := e, warmupUsed := decide (e ≤ cfg.warmup), monitored := true, keyWarn := false
        best := true, broke := decide (cfg.earlyStop < nwt 0)
        saveCalled := !(decide (cfg.earlyStop < nwt 0)) && decide (e % cfg.savePeriod = 0)
        savedBest := !(decide (cfg.earlyStop < nwt 0)) && decide (e % cfg.savePeriod = 0)
        after := { s with mntBest := qEV v }, afterCount := 0 } := by
  unfold runEpoch
  rw [if_neg h, hl]
  exact if_pos himp

theorem runEpoch_some_neg (cfg : Config) (logs : ℕ → Option ℚ) (e : ℕ) (s : TrainerState)
    (c : ℕ) (v : ℚ) (h : ¬ s.mntMode = MntMode.off) (hl : logs e = some v)
    (himp : ¬ ((s.mntMode = MntMode.min ∧ qEV v ≤ s.mntBest) ∨
      (s.mntMode = MntMode.max ∧ s.mntBest ≤ qEV v))) :
    runEpoch cfg logs e s c =
      { epoch := e, warmupUsed := decide (e ≤ cfg.warmup), monitored := true, keyWarn := false
        best := false, broke := decide (cfg.earlyStop < nwt (c + 1))
        saveCalled := !(decide (cfg.earlyStop < nwt (c + 1))) && decide (e % cfg.savePeriod = 0)
        savedBest := false
        after := s, afterCount := c + 1 } := by
  unfold runEpoch
  rw [if_neg h, hl]
  exact if_neg himp

theorem runEpoch_best_imp (cfg : Config) (logs : ℕ → Option ℚ) (e : ℕ) (s : TrainerState)
    (c : ℕ) (h : (runEpoch cfg logs e s c).best = true) :
    ∃ v, logs e = some v ∧ (runEpoch cfg logs e s c).after.mntBest = qEV v ∧
      (runEpoch cfg logs e s c).afterCount = 0 := by
  by_cases hm : s.mntMode = MntMode.off
  · rw [runEpoch_off cfg logs e s c hm] at h
    simp at h
  · cases hl : logs e with
    | none =>
        rw [runEpoch_none cfg logs e s c hm hl] at h
        simp at h
    | some v =>
        by_cases himp : (s.mntMode = MntMode.min ∧ qEV v ≤ s.mntBest) ∨
            (s.mntMode = MntMode.max ∧ s.mntBest ≤ qEV v)
        · rw [runEpoch_some_pos cfg logs e s c v hm hl himp]
          exact ⟨v, rfl, rfl, rfl⟩
        · rw [runEpoch_some_neg cfg logs e s c v hm hl himp] at h
          simp at h

theorem runEpoch_savedBest_imp (cfg : Config) (logs : ℕ → Option ℚ) (e : ℕ) (s : TrainerState)
    (c : ℕ) (h : (runEpoch cfg logs e s c).savedBest = true) :
    e % cfg.savePeriod = 0 ∧ (runEpoch cfg logs e s c).best = true := by
  have hsb := runEpoch_savedBest cfg logs e s c
  have hsc := runEpoch_saveCalled cfg logs e s c
  rw [h] at hsb
  rw [hsc] at hsb
  have hand := hsb.symm
  simp only [Bool.and_eq_true, Bool.not_eq_true', decide_eq_true_eq] at hand
  exact ⟨hand.1.2, hand.2⟩

/-! ### Facts about the epoch loop -/

theorem trainLoop_nil (cfg : Config) (logs : ℕ → Option ℚ) (s : TrainerState) (c : ℕ) :
    trainLoop cfg logs [] s c = [] := rfl

theorem trainLoop_cons (cfg : Config) (logs : ℕ → Option ℚ) (e : ℕ) (rest : List ℕ)
    (s : TrainerState) (c : ℕ) :
    trainLoop cfg logs (e :: rest) s c =
      if (runEpoch cfg logs e s c).broke then [runEpoch cfg logs e s c]
      else runEpoch cfg logs e s c ::
        trainLoop cfg logs rest (runEpoch cfg logs e s c).after
          (runEpoch cfg logs e s c).afterCount := rfl

theorem trainLoop_mem (cfg : Config) (logs : ℕ → Option ℚ) (l : List ℕ) (s : TrainerState)
    (c : ℕ) (r : EpochRecord) (hr : r ∈ trainLoop cfg logs l s c) :
    ∃ e s' c', e ∈ l ∧ r = runEpoch cfg logs e s' c' := by
  induction l generalizing s c with
  | nil => simp [trainLoop] at hr
  | cons e rest ih =>
      unfold trainLoop at hr
      by_cases hb : (runEpoch cfg logs e s c).broke
      · rw [if_pos hb] at hr
        simp at hr
        exact ⟨e, s, c, List.mem_cons_self e rest, hr⟩
      · rw [if_neg hb] at hr
        rcases List.mem_cons.mp hr with h | h
        · exact ⟨e, s, c, List.mem_cons_self e rest, h⟩
        · rcases ih _ _ h with ⟨e', s', c', he', hre⟩
          exact ⟨e', s', c', List.mem_cons_of_mem e he', hre⟩

theorem trainLoop_map_epoch (cfg : Config) (logs : ℕ → Option ℚ) (l : List ℕ)
    (s : TrainerState) (c : ℕ) :
    ∃ t, (trainLoop cfg logs l s c).map (fun r => r.epoch) ++ t = l := by
  induction l generalizing s c with
  | nil => exact ⟨[], rfl⟩
  | cons e rest ih =>
      unfold trainLoop
      by_cases hb : (runEpoch cfg logs e s c).broke
      · rw [if_pos hb]
        exact ⟨rest, by simp [runEpoch_epoch]⟩
      · rw [if_neg hb]
        rcases ih ((runEpoch cfg logs e s c).after) ((runEpoch cfg logs e s c).afterCount)
          with ⟨t, ht⟩
        exact ⟨t, by simp [runEpoch_epoch, ht]⟩

theorem trainLoop_mem_epoch (cfg : Config) (logs : ℕ → Option ℚ) (l : List ℕ)
    (s : TrainerState) (c : ℕ) (r : EpochRecord) (hr : r ∈ trainLoop cfg logs l s c) :
    r.epoch ∈ l := by
  rcases trainLoop_mem cfg logs l s c r hr with ⟨e, s', c', he, hre⟩
  rw [hre, runEpoch_epoch]
  exact he

theorem trainLoop_off (cfg : Config) (logs : ℕ → Option ℚ) (l : List ℕ) (s : TrainerState)
    (c : ℕ) (hs : s.mntMode = MntMode.off) (r : EpochRecord) (hr : r ∈ trainLoop cfg logs l s c) :
    r.best = false ∧ r.broke = false ∧ r.savedBest = false ∧
      r.after.mntMode = MntMode.off := by
  induction l generalizing s c with
  | nil => simp [trainLoop] at hr
  | cons e rest ih =>
      unfold trainLoop at hr
      rw [runEpoch_off cfg logs e s c hs] at hr
      simp at hr
      rcases hr with h | h
      · rw [h]
        exact ⟨rfl, rfl, rfl, hs⟩
      · exact ih s c hs h

theorem trainLoop_off_map (cfg : Config) (logs : ℕ → Option ℚ) (l : List ℕ) (s : TrainerState)
    (c : ℕ) (hs : s.mntMode = MntMode.off) :
    (trainLoop cfg logs l s c).map (fun r => r.epoch) = l := by
  induction l generalizing s c with
  | nil => rfl
  | cons e rest ih =>
      unfold trainLoop
      rw [runEpoch_off cfg logs e s c hs]
      simp only [if_neg (by simp : ¬ (false = true))]
      simp [ih s c hs]

theorem trainLoop_broke_last (cfg : Config) (logs : ℕ → Option ℚ) (l : List ℕ)
    (s : TrainerState) (c : ℕ) (r : EpochRecord) (hr : r ∈ trainLoop cfg logs l s c)
    (hb : r.broke = true) : (trainLoop cfg logs l s c).getLast? = some r := by
  induction l generalizing s c with
  | nil => simp [trainLoop] at hr
  | cons e rest ih =>
      unfold trainLoop at hr ⊢
      by_cases hbr : (runEpoch cfg logs e s c).broke
      · rw [if_pos hbr] at hr ⊢
        simp at hr
        rw [hr]
        rfl
      · rw [if_neg hbr] at hr ⊢
        rcases List.mem_cons.mp hr with h | h
        · rw [h] at hb
          exact absurd hb (by simp [hbr])
        · have htail := ih _ _ h
          cases htl : trainLoop cfg logs rest ((runEpoch cfg logs e s c).after)
              ((runEpoch cfg logs e s c).afterCount) with
          | nil => rw [htl] at h; simp at h
          | cons b t =>
              rw [htl] at htail
              rw [List.getLast?_cons_cons]
              exact htail

theorem trainLoop_drop (cfg : Config) (logs : ℕ → Option ℚ) (l : List ℕ) (s : TrainerState)
    (c : ℕ) (i : ℕ) (ri : EpochRecord) (hi : (trainLoop cfg logs l s c)[i]? = some ri) :
    ∃ l2, (trainLoop cfg logs l s c).drop (i + 1) =
      trainLoop cfg logs l2 ri.after ri.afterCount := by
  induction l generalizing s c i with
  | nil => simp [trainLoop] at hi
  | cons e rest ih =>
      rw [trainLoop_cons] at hi ⊢
      by_cases hb : (runEpoch cfg logs e s c).broke
      · rw [if_pos hb] at hi ⊢
        cases i with
        | zero =>
            simp at hi
            exact ⟨[], by simp [trainLoop]⟩
        | succ k => simp at hi
      · rw [if_neg hb] at hi ⊢
        cases i with
        | zero =>
            simp at hi
            rw [← hi]
            exact ⟨rest, rfl⟩
        | succ k =>
            simp only [List.getElem?_cons_succ] at hi
            rcases ih _ _ k hi with ⟨l2, hl2⟩
            exact ⟨l2, by simpa using hl2⟩

/-! ### Facts about the event trace -/

theorem recEvents_count_hook (r : EpochRecord) (e : ℕ) (b : Bool) :
    (recEvents r).count (Event.hookCall e b) =
      if e = r.epoch ∧ b = r.warmupUsed then 1 else 0 := by
  by_cases hcond : e = r.epoch ∧ b = r.warmupUsed
  · rw [if_pos hcond]
    rcases hcond with ⟨h1, h2⟩
    subst h1
    subst h2
    unfold recEvents
    cases r.saveCalled <;> cases r.savedBest <;>
      simp [List.count_append, List.count_cons]
  · rw [if_neg hcond, List.count_eq_zero]
    unfold recEvents
    cases r.saveCalled <;> cases r.savedBest <;> simp <;> tauto

theorem recEvents_mem_log (r : EpochRecord) (e : ℕ) :
    Event.logEv e ∈ recEvents r ↔ e = r.epoch := by
  unfold recEvents
  cases r.saveCalled <;> cases r.savedBest <;> simp

theorem recEvents_no_init (r : EpochRecord) : Event.initEv ∉ recEvents r := by
  unfold recEvents
  cases r.saveCalled <;> cases r.savedBest <;> simp

theorem recEvents_no_resume (r : EpochRecord) : Event.resumeEv ∉ recEvents r := by
  unfold recEvents
  cases r.saveCalled <;> cases r.savedBest <;> simp

theorem recEvents_no_finalize (r : EpochRecord) : Event.finalizeEv ∉ recEvents r := by
  unfold recEvents
  cases r.saveCalled <;> cases r.savedBest <;> simp

theorem flatMap_no_init (R : List EpochRecord) : Event.initEv ∉ R.flatMap recEvents := by
  intro h
  rcases List.mem_flatMap.mp h with ⟨r, _, hm⟩
  exact recEvents_no_init r hm

theorem flatMap_no_resume (R : List EpochRecord) : Event.resumeEv ∉ R.flatMap recEvents := by
  intro h
  rcases List.mem_flatMap.mp h with ⟨r, _, hm⟩
  exact recEvents_no_resume r hm

theorem flatMap_no_finalize (R : List EpochRecord) :
    Event.finalizeEv ∉ R.flatMap recEvents := by
  intro h
  rcases List.mem_flatMap.mp h with ⟨r, _, hm⟩
  exact recEvents_no_finalize r hm

theorem flatMap_log_mem (R : List EpochRecord) (e : ℕ)
    (h : Event.logEv e ∈ R.flatMap recEvents) : e ∈ R.map (fun r => r.epoch) := by
  rcases List.mem_flatMap.mp h with ⟨r, hr, hm⟩
  rcases (recEvents_mem_log r e).mp hm with he
  rw [he]
  exact List.mem_map.mpr ⟨r, hr, rfl⟩

theorem flatMap_count_hook (w : ℕ) (R : List EpochRecord)
    (hnd : (R.map fun r => r.epoch).Nodup)
    (hwu : ∀ r ∈ R, r.warmupUsed = decide (r.epoch ≤ w)) (e : ℕ) (b : Bool) :
    (R.flatMap recEvents).count (Event.hookCall e b) =
      if Event.logEv e ∈ R.flatMap recEvents ∧ b = decide (e ≤ w) then 1 else 0 := by
  induction R with
  | nil => simp
  | cons r R ih =>
      have hndR : (R.map fun r => r.epoch).Nodup := (List.nodup_cons.mp hnd).2
      have hner : r.epoch ∉ R.map fun r => r.epoch := (List.nodup_cons.mp hnd).1
      have hwuR : ∀ x ∈ R, x.warmupUsed = decide (x.epoch ≤ w) := by
        intro x hx
        exact hwu x (List.mem_cons_of_mem r hx)
      have hwur : r.warmupUsed = decide (r.epoch ≤ w) := hwu r (List.mem_cons_self r R)
      rw [List.flatMap_cons, List.count_append, recEvents_count_hook,
        ih hndR hwuR]
      by_cases he : e = r.epoch
      · subst he
        have hnm : Event.logEv r.epoch ∉ R.flatMap recEvents := by
          intro hm
          exact hner (flatMap_log_mem R r.epoch hm)
        have hml : Event.logEv r.epoch ∈ recEvents r ++ R.flatMap recEvents := by
          rw [List.mem_append]
          exact Or.inl ((recEvents_mem_log r r.epoch).mpr rfl)
        rw [← hwur]
        by_cases hb : b = r.warmupUsed
        · rw [if_pos ⟨rfl, hb⟩, if_neg (fun hc => hnm hc.1), if_pos ⟨hml, hb⟩]
        · rw [if_neg (fun hc => hb hc.2), if_neg (fun hc => hb hc.2),
            if_neg (fun hc => hb hc.2)]
      · have hmeq : Event.logEv e ∈ recEvents r ++ R.flatMap recEvents ↔
            Event.logEv e ∈ R.flatMap recEvents := by
          simp [List.mem_append, recEvents_mem_log, he]
        rw [if_neg (fun hc => he hc.1)]
        by_cases hm : Event.logEv e ∈ R.flatMap recEvents ∧ b = decide (e ≤ w)
        · rw [if_pos hm, if_pos ⟨hmeq.mpr hm.1, hm.2⟩]
        · rw [if_neg hm, if_neg (fun hc => hm ⟨hmeq.mp hc.1, hc.2⟩)]

theorem recEvents_sublist (R : List EpochRecord) (r : EpochRecord) (hr : r ∈ R) :
    (recEvents r).Sublist (R.flatMap recEvents) := by
  rcases List.append_of_mem hr with ⟨R1, R2, rfl⟩
  rw [List.flatMap_append, List.flatMap_cons]
  exact ((List.sublist_append_left (recEvents r) (R2.flatMap recEvents)).trans
    (List.sublist_append_right (R1.flatMap recEvents) _))

theorem initTrainer_mntMode (cfg : Config) (ext : ExternalState) :
    (initTrainer cfg ext).mntMode = cfg.monitor := by
  unfold initTrainer
  cases cfg.resume <;> rfl

theorem runRecords_nodup (cfg : Config) (logs : ℕ → Option ℚ) (ext : ExternalState) :
    ((runRecords cfg logs ext).map fun r => r.epoch).Nodup := by
  unfold runRecords
  rcases trainLoop_map_epoch cfg logs (epochList cfg (initTrainer cfg ext).startEpoch)
    (initTrainer cfg ext) 0 with ⟨t, ht⟩
  have hnd : ((trainLoop cfg logs (epochList cfg (initTrainer cfg ext).startEpoch)
      (initTrainer cfg ext) 0).map (fun r => r.epoch) ++ t).Nodup := by
    rw [ht]
    exact List.nodup_range' _ _
  exact hnd.of_append_left

theorem runRecords_wu (cfg : Config) (logs : ℕ → Option ℚ) (ext : ExternalState) :
    ∀ r ∈ runRecords cfg logs ext, r.warmupUsed = decide (r.epoch ≤ cfg.warmup) := by
  intro r hr
  rcases trainLoop_mem cfg logs _ _ _ r hr with ⟨e, s', c', _, hre⟩
  rw [hre, runEpoch_epoch, runEpoch_warmupUsed]

/-! ### The claims -/

/-- C3: Every checkpoint written by `_save_checkpoint` contains exactly the
fields `arch`, `epoch`, `state_dict`, `optimizer`, `monitor_best` and
`masterVector` (the `Checkpoint` structure has exactly these fields), where
`arch` is the model's type name, `epoch` the epoch number passed in,
`state_dict` / `optimizer` the model's and optimizer's state dicts,
`monitor_best` the current `mnt_best`, and `masterVector` the train
criterion's `masterVector`; with `save_best = False` nothing is written at
all (the per-epoch save is commented out in the source). -/
theorem c3_checkpoint_fields (arch : String) (s : TrainerState) (e : ℕ) :
    (∀ ck : Checkpoint, saveCheckpoint arch s e true = some ck →
      ck.arch = arch ∧ ck.epoch = e ∧ ck.state_dict = s.modelState ∧
        ck.optimizer = s.optState ∧ ck.monitor_best = s.mntBest ∧
        ck.masterVector = s.masterVector) ∧
    saveCheckpoint arch s e false = none := by
  constructor
  · intro ck hck
    unfold saveCheckpoint at hck
    simp only [if_pos] at hck
    injection hck with h
    rw [← h]
    exact ⟨rfl, rfl, rfl, rfl, rfl, rfl⟩
  · rfl

/-- Witness for C3 at a concrete state and epoch. -/
theorem c3_witness :
    ckW.arch = "Net" ∧ ckW.epoch = 4 ∧ ckW.state_dict = stW.modelState ∧
      ckW.optimizer = stW.optState ∧ ckW.monitor_best = stW.mntBest ∧
      ckW.masterVector = stW.masterVector :=
  (c3_checkpoint_fields "Net" stW 4).1 ckW rfl

/-- C4: With `config.resume` set, initialization resumes from the checkpoint:
`start_epoch` becomes the checkpoint's epoch plus one, `mnt_best` is restored
from `monitor_best`, the train criterion's `masterVector` is restored, and the
model and optimizer load their saved state dicts; with `config.resume = None`,
`start_epoch` is 1; and `train()` then iterates starting at `start_epoch`
(whenever the range is nonempty, the first processed epoch is
`start_epoch`). -/
theorem c4_resume (cfg : Config) (logs : ℕ → Option ℚ) (ext : ExternalState) :
    (∀ c : Checkpoint, cfg.resume = some c →
      (initTrainer cfg ext).startEpoch = c.epoch + 1 ∧
      (initTrainer cfg ext).mntBest = c.monitor_best ∧
      (initTrainer cfg ext).masterVector = c.masterVector ∧
      (initTrainer cfg ext).modelState = c.state_dict ∧
      (initTrainer cfg ext).optState = c.optimizer) ∧
    (cfg.resume = none → (initTrainer cfg ext).startEpoch = 1) ∧
    ((initTrainer cfg ext).startEpoch ≤ cfg.epochs →
      ((runRecords cfg logs ext).head?).map (fun r => r.epoch) =
        some (initTrainer cfg ext).startEpoch) := by
  refine ⟨?_, ?_, ?_⟩
  · intro c hc
    simp [initTrainer, hc]
  · intro hc
    simp [initTrainer, hc]
  · intro hle
    unfold runRecords epochList
    have hlen : cfg.epochs + 1 - (initTrainer cfg ext).startEpoch =
        (cfg.epochs - (initTrainer cfg ext).startEpoch) + 1 := by omega
    rw [hlen, List.range'_succ, trainLoop_cons]
    by_cases hb : (runEpoch cfg logs (initTrainer cfg ext).startEpoch
        (initTrainer cfg ext) 0).broke
    · rw [if_pos hb]
      simp [runEpoch_epoch]
    · rw [if_neg hb]
      simp [runEpoch_epoch]

/-- Witness for C4 at the resumed run C. -/
theorem c4_witness :
    (initTrainer cfgC extC).startEpoch = ckptC.epoch + 1 ∧
    (initTrainer cfgC extC).mntBest = ckptC.monitor_best ∧
    (initTrainer cfgC extC).masterVector = ckptC.masterVector ∧
    (initTrainer cfgC extC).modelState = ckptC.state_dict ∧
    (initTrainer cfgC extC).optState = ckptC.optimizer :=
  (c4_resume cfgC logsC extC).1 ckptC rfl

/-- C10: A metric value exactly equal to the current `mnt_best` counts as
improved, in `min` mode (`<=`) as in `max` mode (`>=`): it sets the `best`
flag, updates `mnt_best` to that value and resets `not_improved_count`
to 0. -/
theorem c10_nonstrict (cfg : Config) (logs : ℕ → Option ℚ) (e : ℕ) (s : TrainerState)
    (c : ℕ) (v : ℚ) (hmode : s.mntMode = MntMode.min ∨ s.mntMode = MntMode.max)
    (hv : logs e = some v) (heq : qEV v = s.mntBest) :
    (runEpoch cfg logs e s c).best = true ∧
    (runEpoch cfg logs e s c).after.mntBest = qEV v ∧
    (runEpoch cfg logs e s c).afterCount = 0 := by
  have hoff : ¬ s.mntMode = MntMode.off := by
    rcases hmode with h | h <;> rw [h] <;> simp
  have himp : (s.mntMode = MntMode.min ∧ qEV v ≤ s.mntBest) ∨
      (s.mntMode = MntMode.max ∧ s.mntBest ≤ qEV v) := by
    rcases hmode with h | h
    · exact Or.inl ⟨h, le_of_eq heq⟩
    · exact Or.inr ⟨h, le_of_eq heq.symm⟩
  rw [runEpoch_some_pos cfg logs e s c v hoff hv himp]
  exact ⟨rfl, rfl, rfl⟩

/-- Witness for C10 with value 10 equal to the current best, in `min` mode. -/
theorem c10_witness :
    (runEpoch cfgB logsW 1 stW 0).best = true ∧
    (runEpoch cfgB logsW 1 stW 0).after.mntBest = qEV 10 ∧
    (runEpoch cfgB logsW 1 stW 0).afterCount = 0 :=
  c10_nonstrict cfgB logsW 1 stW 0 10 (Or.inl rfl) rfl rfl

/-- C5: The two logged fallbacks. (a) When the monitored metric key is absent
from an epoch's log (and monitoring is on), the warning fires, monitoring is
disabled (`mnt_mode` becomes `'off'`) and the epoch counts as not improved
(`best` stays false, `not_improved_count` is incremented). (b) In
`_prepare_device`, a positive request with no GPU available warns and drops to
0 (CPU); a request exceeding the available count warns and is clamped to it;
the device is `cuda:0` exactly when the effective count is positive, and
`device_ids = [0, ..., effective_count - 1]`. -/
theorem c5_guards :
    (∀ (cfg : Config) (logs : ℕ → Option ℚ) (e : ℕ) (s : TrainerState) (c : ℕ),
      ¬ s.mntMode = MntMode.off → logs e = none →
      (runEpoch cfg logs e s c).keyWarn = true ∧
      (runEpoch cfg logs e s c).after.mntMode = MntMode.off ∧
      (runEpoch cfg logs e s c).best = false ∧
      (runEpoch cfg logs e s c).afterCount = c + 1) ∧
    (∀ nGpu nGpuUse : ℕ,
      (0 < nGpuUse → nGpu = 0 →
        (prepareDevice nGpu nGpuUse).warnNoGpu = true ∧
        (prepareDevice nGpu nGpuUse).nGpuUse = 0 ∧
        (prepareDevice nGpu nGpuUse).cudaDevice = false) ∧
      (nGpu < nGpuUse →
        ((prepareDevice nGpu nGpuUse).warnNoGpu = true ∨
          (prepareDevice nGpu nGpuUse).warnExceed = true) ∧
        (prepareDevice nGpu nGpuUse).nGpuUse = nGpu) ∧
      ((prepareDevice nGpu nGpuUse).cudaDevice = true ↔
        0 < (prepareDevice nGpu nGpuUse).nGpuUse) ∧
      (prepareDevice nGpu nGpuUse).deviceIds =
        List.range (prepareDevice nGpu nGpuUse).nGpuUse) := by
  constructor
  · intro cfg logs e s c hoff hl
    rw [runEpoch_none cfg logs e s c hoff hl]
    exact ⟨rfl, rfl, rfl, rfl⟩
  · intro nGpu nGpuUse
    refine ⟨?_, ?_, ?_, ?_⟩
    · intro h1 h2
      subst h2
      simp [prepareDevice, h1]
    · intro h
      by_cases h0 : 0 < nGpuUse ∧ nGpu = 0
      · simp [prepareDevice, h0]
      · simp only [prepareDevice, if_neg h0]
        simp [h, h0]
    · unfold prepareDevice
      split_ifs <;> simp
    · unfold prepareDevice
      split_ifs <;> rfl

/-- Witness for C5: epoch 1 of run E misses the key; `_prepare_device(2)` with
no GPU available. -/
theorem c5_witness :
    ((runEpoch cfgE logsE 1 (initTrainer cfgE extB) 0).keyWarn = true ∧
     (runEpoch cfgE logsE 1 (initTrainer cfgE extB) 0).after.mntMode = MntMode.off ∧
     (runEpoch cfgE logsE 1 (initTrainer cfgE extB) 0).best = false ∧
     (runEpoch cfgE logsE 1 (initTrainer cfgE extB) 0).afterCount = 0 + 1) ∧
    ((prepareDevice 0 2).warnNoGpu = true ∧ (prepareDevice 0 2).nGpuUse = 0 ∧
      (prepareDevice 0 2).cudaDevice = false) :=
  ⟨c5_guards.1 cfgE logsE 1 (initTrainer cfgE extB) 0 (by decide) rfl,
   (c5_guards.2 0 2).1 (by decide) rfl⟩

/-- C8: `model_best.pth` is written only at epochs with
`epoch % save_period == 0` that were judged best; an epoch that improves the
monitored metric but is not a multiple of `save_period` triggers no
`_save_checkpoint` call at all (so nothing of it is ever saved), even though
`mnt_best` is updated to its metric value. -/
theorem c8_save_gating (cfg : Config) (logs : ℕ → Option ℚ) (ext : ExternalState)
    (r : EpochRecord) (hr : r ∈ runRecords cfg logs ext) :
    (r.savedBest = true → r.epoch % cfg.savePeriod = 0 ∧ r.best = true) ∧
    (r.best = true → ¬ r.epoch % cfg.savePeriod = 0 →
      r.saveCalled = false ∧ r.savedBest = false ∧
      ∃ v, logs r.epoch = some v ∧ r.after.mntBest = qEV v) := by
  rcases trainLoop_mem cfg logs _ _ _ r hr with ⟨e, s', c', he, hre⟩
  subst hre
  constructor
  · intro h
    have hres := runEpoch_savedBest_imp cfg logs e s' c' h
    rw [runEpoch_epoch]
    exact hres
  · intro hb hm
    rw [runEpoch_epoch] at hm
    have hscf : (runEpoch cfg logs e s' c').saveCalled = false := by
      rw [runEpoch_saveCalled]
      simp [hm]
    have hsbf : (runEpoch cfg logs e s' c').savedBest = false := by
      rw [runEpoch_savedBest, hscf]
      simp
    refine ⟨hscf, hsbf, ?_⟩
    rcases runEpoch_best_imp cfg logs e s' c' hb with ⟨v, hv, hbest, _⟩
    rw [runEpoch_epoch]
    exact ⟨v, hv, hbest⟩

/-- Witness for C8: epoch 1 of run G improves in `max` mode but
`1 % 2 ≠ 0`, so no checkpoint call happens while `mnt_best` is updated. -/
theorem c8_witness :
    recG1.saveCalled = false ∧ recG1.savedBest = false ∧
      ∃ v, logsG recG1.epoch = some v ∧ recG1.after.mntBest = qEV v :=
  (c8_save_gating cfgG logsG extB recG1 (by decide)).2 (by decide) (by decide)

/-- C2, counterexample: with `early_stop = 1` in run B, epoch 2 fails to
improve — one consecutive non-improving epoch, i.e. `early_stop` many — yet
the loop does not stop there: epoch 3 is still executed (the code breaks only
when `not_improved_count` strictly exceeds `early_stop`). -/
theorem c2_counterexample :
    cfgB.earlyStop = nwt 1 ∧
    (runRecords cfgB logsB extB).map (fun r => r.epoch) = [1, 2, 3] ∧
    recB2 ∈ runRecords cfgB logsB extB ∧ recB2.epoch = 2 ∧
    recB2.monitored = true ∧ recB2.best = false ∧ recB2.afterCount = 1 ∧
    recB3 ∈ runRecords cfgB logsB extB ∧ recB3.epoch = 3 := by decide

/-- C2, amended: the loop breaks exactly when the monitor block ran and
`not_improved_count` strictly exceeds `early_stop` (so only after
`early_stop + 1` consecutive non-improving epochs, not `early_stop`); a
breaking epoch is the last one executed — no further warmup or training epoch
runs; and when the monitor mode is configured `'off'` the loop never stops
early (no record breaks and the whole `range(start_epoch, epochs + 1)` is
processed). -/
theorem c2_early_stopping (cfg : Config) (logs : ℕ → Option ℚ) (ext : ExternalState)
    (r : EpochRecord) (hr : r ∈ runRecords cfg logs ext) :
    (r.broke = true ↔ (r.monitored = true ∧ cfg.earlyStop < nwt r.afterCount)) ∧
    (r.broke = true → (runRecords cfg logs ext).getLast? = some r) ∧
    (cfg.monitor = MntMode.off → r.broke = false ∧
      (runRecords cfg logs ext).map (fun x => x.epoch) =
        epochList cfg (initTrainer cfg ext).startEpoch) := by
  refine ⟨?_, ?_, ?_⟩
  · rcases trainLoop_mem cfg logs _ _ _ r hr with ⟨e, s', c', he, hre⟩
    subst hre
    rw [runEpoch_broke]
    simp [Bool.and_eq_true, decide_eq_true_eq]
  · intro h
    exact trainLoop_broke_last cfg logs _ _ _ r hr h
  · intro hoff
    have hsoff : (initTrainer cfg ext).mntMode = MntMode.off := by
      rw [initTrainer_mntMode, hoff]
    exact ⟨(trainLoop_off cfg logs _ _ _ hsoff r hr).2.1,
      trainLoop_off_map cfg logs _ _ _ hsoff⟩

/-- Witness for the amended C2: the breaking epoch 3 of run B is the last
record of the run. -/
theorem c2_witness : (runRecords cfgB logsB extB).getLast? = some recB3 :=
  (c2_early_stopping cfgB logsB extB recB3 (by decide)).2.1 (by decide)

/-- C9: Once `mnt_mode` is `'off'`, it stays `'off'`: every epoch after one
that left the mode `'off'` (and every epoch of a run configured with
`monitor: off`) runs with monitoring disabled — it is never marked best,
never writes `model_best.pth`, never triggers early stopping, and leaves the
mode `'off'`. -/
theorem c9_off_absorbing (cfg : Config) (logs : ℕ → Option ℚ) (ext : ExternalState) :
    (∀ i j : ℕ, i < j → ∀ ri rj : EpochRecord,
      (runRecords cfg logs ext)[i]? = some ri →
      (runRecords cfg logs ext)[j]? = some rj →
      ri.after.mntMode = MntMode.off →
      rj.best = false ∧ rj.broke = false ∧ rj.savedBest = false ∧
        rj.after.mntMode = MntMode.off) ∧
    (cfg.monitor = MntMode.off → ∀ r ∈ runRecords cfg logs ext,
      r.best = false ∧ r.broke = false ∧ r.savedBest = false ∧
        r.after.mntMode = MntMode.off) := by
  constructor
  · intro i j hij ri rj hri hrj hoff
    unfold runRecords at hri hrj
    rcases trainLoop_drop cfg logs _ _ _ i ri hri with ⟨l2, hl2⟩
    have hj : rj ∈ (trainLoop cfg logs (epochList cfg (initTrainer cfg ext).startEpoch)
        (initTrainer cfg ext) 0).drop (i + 1) := by
      have hidx : ((trainLoop cfg logs (epochList cfg (initTrainer cfg ext).startEpoch)
          (initTrainer cfg ext) 0).drop (i + 1))[j - (i + 1)]? = some rj := by
        rw [List.getElem?_drop]
        have harith : i + 1 + (j - (i + 1)) = j := by omega
        rw [harith]
        exact hrj
      exact List.getElem?_mem hidx
    rw [hl2] at hj
    exact trainLoop_off cfg logs l2 ri.after ri.afterCount hoff rj hj
  · intro hoff r hr
    have hsoff : (initTrainer cfg ext).mntMode = MntMode.off := by
      rw [initTrainer_mntMode, hoff]
    exact trainLoop_off cfg logs _ _ _ hsoff r hr

/-- Witness for C9: epoch 1 of run E turns monitoring off; epoch 3 (two
epochs later) is not best, does not break, saves nothing, and leaves the mode
off. -/
theorem c9_witness :
    recE3.best = false ∧ recE3.broke = false ∧ recE3.savedBest = false ∧
      recE3.after.mntMode = MntMode.off :=
  (c9_off_absorbing cfgE logsE extB).1 0 2 (by omega) recE1 recE3
    (by decide) (by decide) (by decide)

/-- The trace of a run splits into everything before `finalize` and the
optional final `finalize`. -/
theorem runEvents_decomp (cfg : Config) (logs : ℕ → Option ℚ) (ext : ExternalState) :
    runEvents cfg logs ext =
      (Event.initEv :: ((if cfg.resume.isSome then [Event.resumeEv] else []) ++
        (runRecords cfg logs ext).flatMap recEvents)) ++
      (if cfg.hasWriter then [Event.finalizeEv] else []) := by
  unfold runEvents
  simp [List.append_assoc]

/-- C7: In every run, any write of `model_best.pth` happens strictly before
`self.writer.finalize()` — the final write at the end of `train()`; nothing
is written after `train()` finalizes. -/
theorem c7_best_before_finalize (cfg : Config) (logs : ℕ → Option ℚ) (ext : ExternalState)
    (i j e : ℕ) (hi : (runEvents cfg logs ext)[i]? = some (Event.saveBestWrite e))
    (hj : (runEvents cfg logs ext)[j]? = some Event.finalizeEv) : i < j := by
  rw [runEvents_decomp] at hi hj
  have hfa : Event.finalizeEv ∉
      Event.initEv :: ((if cfg.resume.isSome then [Event.resumeEv] else []) ++
        (runRecords cfg logs ext).flatMap recEvents) := by
    intro hmem
    rcases List.mem_cons.mp hmem with h | h
    · simp at h
    · rcases List.mem_append.mp h with h1 | h1
      · revert h1
        split <;> simp
      · exact flatMap_no_finalize _ h1
  have hjA : (Event.initEv :: ((if cfg.resume.isSome then [Event.resumeEv] else []) ++
      (runRecords cfg logs ext).flatMap recEvents)).length ≤ j := by
    by_contra hlt
    push_neg at hlt
    rw [List.getElem?_append_left hlt] at hj
    exact hfa (List.getElem?_mem hj)
  have hiA : i < (Event.initEv :: ((if cfg.resume.isSome then [Event.resumeEv] else []) ++
      (runRecords cfg logs ext).flatMap recEvents)).length := by
    by_contra hge
    push_neg at hge
    rw [List.getElem?_append_right hge] at hi
    have hmem : Event.saveBestWrite e ∈
        (if cfg.hasWriter then [Event.finalizeEv] else []) := List.getElem?_mem hi
    revert hmem
    split <;> simp
  omega

/-- Witness for C7: in run C the `model_best.pth` write sits at index 5 of
the trace and `finalize` at index 6. -/
theorem c7_witness :
    (runEvents cfgC logsC extC)[5]? = some (Event.saveBestWrite 2) ∧
    (runEvents cfgC logsC extC)[6]? = some Event.finalizeEv ∧ 5 < 6 :=
  ⟨by decide, by decide, c7_best_before_finalize cfgC logsC extC 5 6 2 (by decide) (by decide)⟩

/-- C6, counterexample: the phases do not occur in the order "initialize,
loop, log, checkpoint, resume" — in the resumed run C, `_resume_checkpoint`
(index 1 of the trace) happens before the `_save_checkpoint` call (index 4),
because resuming is part of `__init__`, not a phase after checkpointing. -/
theorem c6_counterexample :
    ¬ (∀ i j : ℕ,
        (∃ e b, (runEvents cfgC logsC extC)[i]? = some (Event.saveCall e b)) →
        (runEvents cfgC logsC extC)[j]? = some Event.resumeEv → i < j) := by
  intro h
  have h41 := h 4 1 ⟨2, true, by decide⟩ (by decide)
  omega

/-- C6, amended: the phases occur in the order "initialize (including the
resume, when configured), then the epoch loop — each epoch running its hook,
then logging, then possibly checkpointing — then the writer finalization":
`init` is unique, `resume` and `finalize` occur exactly when configured, and
for every executed epoch the trace contains, as a subsequence,
`init`, then `resume` (if any), then the epoch's hook call, log, checkpoint
call (if any), `model_best.pth` write (if any), then `finalize` (if any). -/
theorem c6_phase_order (cfg : Config) (logs : ℕ → Option ℚ) (ext : ExternalState) :
    ((runEvents cfg logs ext).count Event.initEv = 1) ∧
    ((runEvents cfg logs ext).count Event.resumeEv =
      if cfg.resume.isSome then 1 else 0) ∧
    ((runEvents cfg logs ext).count Event.finalizeEv =
      if cfg.hasWriter then 1 else 0) ∧
    (∀ r ∈ runRecords cfg logs ext,
      (([Event.initEv] ++ (if cfg.resume.isSome then [Event.resumeEv] else []) ++
        ([Event.hookCall r.epoch r.warmupUsed, Event.logEv r.epoch] ++
          (if r.saveCalled then [Event.saveCall r.epoch r.best] else []) ++
          (if r.savedBest then [Event.saveBestWrite r.epoch] else [])) ++
        (if cfg.hasWriter then [Event.finalizeEv] else []))).Sublist
        (runEvents cfg logs ext)) := by
  have hro : ∀ x : Event, ¬ x = Event.resumeEv →
      List.count x (if cfg.resume.isSome then [Event.resumeEv] else []) = 0 := by
    intro x hx
    cases cfg.resume.isSome <;> simp [hx]
  have hfo : ∀ x : Event, ¬ x = Event.finalizeEv →
      List.count x (if cfg.hasWriter then [Event.finalizeEv] else []) = 0 := by
    intro x hx
    cases cfg.hasWriter <;> simp [hx]
  refine ⟨?_, ?_, ?_, ?_⟩
  · rw [runEvents_decomp, List.count_append, List.count_cons_self,
      List.count_append, hro Event.initEv (by simp),
      List.count_eq_zero.mpr (flatMap_no_init _), hfo Event.initEv (by simp)]
  · rw [runEvents_decomp, List.count_append, List.count_cons_of_ne (by simp),
      List.count_append,
      List.count_eq_zero.mpr (flatMap_no_resume _), hfo Event.resumeEv (by simp)]
    cases cfg.resume.isSome <;> simp
  · rw [runEvents_decomp, List.count_append, List.count_cons_of_ne (by simp),
      List.count_append,
      List.count_eq_zero.mpr (flatMap_no_finalize _), hro Event.finalizeEv (by simp)]
    cases cfg.hasWriter <;> simp
  · intro r hr
    have hrec : recEvents r =
        [Event.hookCall r.epoch r.warmupUsed, Event.logEv r.epoch] ++
          (if r.saveCalled then [Event.saveCall r.epoch r.best] else []) ++
          (if r.savedBest then [Event.saveBestWrite r.epoch] else []) := by
      have hsb : r.savedBest = (r.saveCalled && r.best) := by
        rcases trainLoop_mem cfg logs _ _ _ r hr with ⟨e, s', c', _, hre⟩
        rw [hre]
        exact runEpoch_savedBest cfg logs e s' c'
      unfold recEvents
      rw [hsb]
      cases r.saveCalled <;> cases r.best <;> simp
    rw [runEvents_decomp]
    have hbody : (recEvents r).Sublist ((runRecords cfg logs ext).flatMap recEvents) :=
      recEvents_sublist _ r hr
    rw [hrec] at hbody
    have hmid : (([Event.initEv] ++ (if cfg.resume.isSome then [Event.resumeEv] else [])) ++
        ([Event.hookCall r.epoch r.warmupUsed, Event.logEv r.epoch] ++
          (if r.saveCalled then [Event.saveCall r.epoch r.best] else []) ++
          (if r.savedBest then [Event.saveBestWrite r.epoch] else []))).Sublist
        (([Event.initEv] ++ (if cfg.resume.isSome then [Event.resumeEv] else [])) ++
          (runRecords cfg logs ext).flatMap recEvents) :=
      hbody.append_left _
    have hfin := hmid.append
      (List.Sublist.refl (if cfg.hasWriter then [Event.finalizeEv] else []))
    simpa [List.append_assoc] using hfin

/-- Witness for the amended C6 at the single epoch record of run C. -/
theorem c6_witness :
    (([Event.initEv] ++ (if cfgC.resume.isSome then [Event.resumeEv] else []) ++
      ([Event.hookCall recC1.epoch recC1.warmupUsed, Event.logEv recC1.epoch] ++
        (if recC1.saveCalled then [Event.saveCall recC1.epoch recC1.best] else []) ++
        (if recC1.savedBest then [Event.saveBestWrite recC1.epoch] else [])) ++
      (if cfgC.hasWriter then [Event.finalizeEv] else []))).Sublist
      (runEvents cfgC logsC extC) :=
  (c6_phase_order cfgC logsC extC).2.2.2 recC1 (by decide)

/-- C1: Every epoch the loop processes lies in
`range(start_epoch, epochs + 1)`, and its result comes from exactly one hook:
for each epoch `e` that produced a log, the trace contains exactly one
`_warmup_epoch(e)` call when `e <= config['trainer']['warmup']` and none
otherwise, and exactly one `_train_epoch(e)` call when `e > warmup` and none
otherwise — no other source produces an epoch result. -/
theorem c1_hook_dispatch (cfg : Config) (logs : ℕ → Option ℚ) (ext : ExternalState) (e : ℕ) :
    ((runEvents cfg logs ext).count (Event.hookCall e true) =
      if Event.logEv e ∈ runEvents cfg logs ext ∧ e ≤ cfg.warmup then 1 else 0) ∧
    ((runEvents cfg logs ext).count (Event.hookCall e false) =
      if Event.logEv e ∈ runEvents cfg logs ext ∧ cfg.warmup < e then 1 else 0) ∧
    (Event.logEv e ∈ runEvents cfg logs ext →
      (initTrainer cfg ext).startEpoch ≤ e ∧ e ≤ cfg.epochs) := by
  have hflat := flatMap_count_hook cfg.warmup (runRecords cfg logs ext)
    (runRecords_nodup cfg logs ext) (runRecords_wu cfg logs ext) e
  have hcnt : ∀ b : Bool, (runEvents cfg logs ext).count (Event.hookCall e b) =
      ((runRecords cfg logs ext).flatMap recEvents).count (Event.hookCall e b) := by
    intro b
    rw [runEvents_decomp, List.count_append, List.count_cons_of_ne (by simp),
      List.count_append]
    have h1 : List.count (Event.hookCall e b)
        (if cfg.resume.isSome then [Event.resumeEv] else []) = 0 := by
      cases cfg.resume.isSome <;> simp
    have h2 : List.count (Event.hookCall e b)
        (if cfg.hasWriter then [Event.finalizeEv] else []) = 0 := by
      cases cfg.hasWriter <;> simp
    rw [h1, h2]
    omega
  have hmem : (Event.logEv e ∈ runEvents cfg logs ext) ↔
      Event.logEv e ∈ (runRecords cfg logs ext).flatMap recEvents := by
    rw [runEvents_decomp]
    cases hres : cfg.resume.isSome <;> cases hw : cfg.hasWriter <;>
      simp [hres, hw]
  refine ⟨?_, ?_, ?_⟩
  · rw [hcnt true, hflat true]
    by_cases hw' : e ≤ cfg.warmup <;>
      by_cases hm : Event.logEv e ∈ (runRecords cfg logs ext).flatMap recEvents <;>
      simp [hw', hm, hmem]
  · rw [hcnt false, hflat false]
    have hdec : (false = decide (e ≤ cfg.warmup)) ↔ cfg.warmup < e := by
      rw [eq_comm, decide_eq_false_iff_not]
      exact Nat.not_le
    simp only [hdec, hmem]
  · intro hm
    have hm2 := hmem.mp hm
    have he := flatMap_log_mem _ e hm2
    rcases trainLoop_map_epoch cfg logs (epochList cfg (initTrainer cfg ext).startEpoch)
      (initTrainer cfg ext) 0 with ⟨t, ht⟩
    have hmem2 : e ∈ epochList cfg (initTrainer cfg ext).startEpoch := by
      rw [← ht]
      exact List.mem_append.mpr (Or.inl he)
    rw [epochList] at hmem2
    have hb := List.mem_range'_1.mp hmem2
    omega

/-- Witness for C1: epoch 2 of run C produced a log, so it lies between
`start_epoch` and `epochs`. -/
theorem c1_witness : (initTrainer cfgC extC).startEpoch ≤ 2 ∧ 2 ≤ cfgC.epochs :=
  (c1_hook_dispatch cfgC logsC extC 2).2.2 (by decide)
